import Mathlib

/-!
Verification of the EMS Russian Post tracking retriever (src/main.rs).

The program fetches a carrier response, unwraps a JSON envelope (UTF-8 bytes,
then JSON, then the string under key "d"), parses an HTML table with CSS class
`emsNumber` into `TrackingStatusInfo` records, and reports failures through a
cause-chain `Error` value.

Shallow embedding conventions:
  * Rust byte buffers (`Vec<u8>`) are `List Nat`; Rust strings are Lean
    `String`.
  * The `select` crate's HTML parsing (`Document::from`) is an external
    collaborator; table-parsing functions take the parse function
    `String → NodeList` as an explicit argument and operate on the resulting
    DOM tree.
  * `std::str::from_utf8` and `rustc_serialize::json::Json::from_str` are
    modelled by executable Lean implementations of UTF-8 validation and JSON
    parsing below.
  * Fallible Rust functions returning `Result<T, Error>` become
    `Except Error T`; a Rust panic is modelled as `Option.none`.
-/

/-! ## Character helpers -/

theorem char_toNat_inj (a b : Char) (h : a.toNat = b.toNat) : a = b :=
  Char.eq_of_val_eq (UInt32.ext h)

theorem char_isDigit_bounds (c : Char) (h : c.isDigit = true) :
    48 ≤ c.toNat ∧ c.toNat ≤ 57 := by
  simp [Char.isDigit, Char.le_def, decide_eq_true_iff] at h
  exact h

theorem digitChar_toNat : ∀ k, k < 10 → (Nat.digitChar k).toNat = 48 + k := by
  decide

theorem digitChar_isDigit : ∀ k, k < 10 → (Nat.digitChar k).isDigit = true := by
  decide

/-- Unicode scalar values: below the surrogate range or between it and
0x110000.  Every Lean `Char` satisfies this by construction. -/
theorem char_scalar (c : Char) :
    c.toNat < 0xD800 ∨ (0xE000 ≤ c.toNat ∧ c.toNat < 0x110000) := by
  have h := c.valid
  rcases h with h | h
  · left
    exact h
  · right
    exact ⟨h.1, h.2⟩

/-! ## UTF-8 (models `std::str::from_utf8` validation and `String::from_utf8_lossy`) -/

/-- UTF-8 encoding of one scalar value, by the standard four ranges. -/
def encodeChar (c : Char) : List Nat :=
  let n := c.toNat
  if n < 0x80 then [n]
  else if n < 0x800 then [0xC0 + n / 0x40, 0x80 + n % 0x40]
  else if n < 0x10000 then
    [0xE0 + n / 0x1000, 0x80 + n / 0x40 % 0x40, 0x80 + n % 0x40]
  else
    [0xF0 + n / 0x40000, 0x80 + n / 0x1000 % 0x40, 0x80 + n / 0x40 % 0x40,
     0x80 + n % 0x40]

def utf8Encode : List Char → List Nat
  | [] => []
  | c :: cs => encodeChar c ++ utf8Encode cs

/-- Continuation byte test. -/
def contByte (b : Nat) : Prop := 0x80 ≤ b ∧ b ≤ 0xBF

instance (b : Nat) : Decidable (contByte b) := by
  unfold contByte
  infer_instance

/-- Valid second byte for a given lead byte: continuation range, tightened
for the four lead bytes (0xE0, 0xED, 0xF0, 0xF4) whose full continuation
range would admit overlong forms, surrogates or values above 0x10FFFF —
exactly Rust's `str::from_utf8` validity table. -/
def sndByteOk (b0 b1 : Nat) : Prop :=
  if b0 = 0xE0 then 0xA0 ≤ b1 ∧ b1 ≤ 0xBF
  else if b0 = 0xED then 0x80 ≤ b1 ∧ b1 ≤ 0x9F
  else if b0 = 0xF0 then 0x90 ≤ b1 ∧ b1 ≤ 0xBF
  else if b0 = 0xF4 then 0x80 ≤ b1 ∧ b1 ≤ 0x8F
  else contByte b1

instance (b0 b1 : Nat) : Decidable (sndByteOk b0 b1) := by
  unfold sndByteOk
  infer_instance

mutual
/-- Strict UTF-8 decoding, rejecting overlong forms, surrogates and values
above 0x10FFFF, exactly as Rust's `str::from_utf8` validity table does.
Returns `none` on invalid input. -/
def utf8Decode : List Nat → Option (List Char)
  | [] => some []
  | b0 :: rest =>
    if b0 ≤ 0x7F then
      (utf8Decode rest).map (fun cs => Char.ofNat b0 :: cs)
    else if 0xC2 ≤ b0 ∧ b0 ≤ 0xDF then utf8Decode2 b0 rest
    else if 0xE0 ≤ b0 ∧ b0 ≤ 0xEF then utf8Decode3 b0 rest
    else if 0xF0 ≤ b0 ∧ b0 ≤ 0xF4 then utf8Decode4 b0 rest
    else none
/-- Continuation of a two-byte sequence. -/
def utf8Decode2 (b0 : Nat) : List Nat → Option (List Char)
  | b1 :: rest2 =>
    if contByte b1 then
      (utf8Decode rest2).map
        (fun cs => Char.ofNat ((b0 - 0xC0) * 0x40 + (b1 - 0x80)) :: cs)
    else none
  | [] => none
/-- Continuation of a three-byte sequence. -/
def utf8Decode3 (b0 : Nat) : List Nat → Option (List Char)
  | b1 :: b2 :: rest2 =>
    if sndByteOk b0 b1 ∧ contByte b2 then
      (utf8Decode rest2).map
        (fun cs =>
          Char.ofNat ((b0 - 0xE0) * 0x1000 + (b1 - 0x80) * 0x40 + (b2 - 0x80)) :: cs)
    else none
  | _ => none
/-- Continuation of a four-byte sequence. -/
def utf8Decode4 (b0 : Nat) : List Nat → Option (List Char)
  | b1 :: b2 :: b3 :: rest2 =>
    if sndByteOk b0 b1 ∧ contByte b2 ∧ contByte b3 then
      (utf8Decode rest2).map
        (fun cs =>
          Char.ofNat ((b0 - 0xF0) * 0x40000 + (b1 - 0x80) * 0x1000 +
            (b2 - 0x80) * 0x40 + (b3 - 0x80)) :: cs)
    else none
  | _ => none
end

/-- Lossy UTF-8 decoding used only when rendering a `TrackingRequestError`
body: an invalid sequence is replaced by U+FFFD.  Coarse model of
`String::from_utf8_lossy` (the exact replacement granularity differs); only
its totality matters to the claims. -/
def utf8DecodeLossy : List Nat → List Char
  | [] => []
  | b0 :: rest =>
    if b0 ≤ 0x7F then Char.ofNat b0 :: utf8DecodeLossy rest
    else if 0xC2 ≤ b0 ∧ b0 ≤ 0xDF then
      match rest with
      | b1 :: rest2 =>
        if contByte b1 then
          Char.ofNat ((b0 - 0xC0) * 0x40 + (b1 - 0x80)) :: utf8DecodeLossy rest2
        else Char.ofNat 0xFFFD :: utf8DecodeLossy rest2
      | [] => [Char.ofNat 0xFFFD]
    else if 0xE0 ≤ b0 ∧ b0 ≤ 0xEF then
      match rest with
      | b1 :: b2 :: rest2 =>
        if (if b0 = 0xE0 then 0xA0 ≤ b1 ∧ b1 ≤ 0xBF
            else if b0 = 0xED then 0x80 ≤ b1 ∧ b1 ≤ 0x9F
            else contByte b1) ∧ contByte b2 then
          Char.ofNat ((b0 - 0xE0) * 0x1000 + (b1 - 0x80) * 0x40 + (b2 - 0x80)) ::
            utf8DecodeLossy rest2
        else Char.ofNat 0xFFFD :: utf8DecodeLossy rest2
      | _ => [Char.ofNat 0xFFFD]
    else if 0xF0 ≤ b0 ∧ b0 ≤ 0xF4 then
      match rest with
      | b1 :: b2 :: b3 :: rest2 =>
        if (if b0 = 0xF0 then 0x90 ≤ b1 ∧ b1 ≤ 0xBF
            else if b0 = 0xF4 then 0x80 ≤ b1 ∧ b1 ≤ 0x8F
            else contByte b1) ∧ contByte b2 ∧ contByte b3 then
          Char.ofNat ((b0 - 0xF0) * 0x40000 + (b1 - 0x80) * 0x1000 +
            (b2 - 0x80) * 0x40 + (b3 - 0x80)) :: utf8DecodeLossy rest2
        else Char.ofNat 0xFFFD :: utf8DecodeLossy rest2
      | _ => [Char.ofNat 0xFFFD]
    else Char.ofNat 0xFFFD :: utf8DecodeLossy rest

def fromUtf8Lossy (bytes : List Nat) : String :=
  String.mk (utf8DecodeLossy bytes)

/-! ## Error model (src/main.rs lines 40-171)

`ErrorType` mirrors the Rust enum.  Payloads owned by external library error
types (`rustc_serialize::json::ParserError`, `std::str::Utf8Error`,
`hyper::Error`, `std::io::Error`, `chrono::ParseError`) are carried as plain
message strings (or dropped when nothing reads them); the hyper status code is
a `Nat`.  The correspondence with the specification's names:
`jsonParserError` = JsonParseFailure, `utf8Error` = TextEncodingFailure,
`hyperError` = TransportFailure, `ioError` = IoFailure,
`trackingRequestError` = RequestRejected,
`processResponseFailedError` = ResponseShapeFailure,
`htmlStructureError` = HtmlStructureFailure,
`dateTimeParseError` = DateParseFailure. -/

inductive ErrorType where
  | jsonParserError (msg : String)
  | utf8Error
  | hyperError (msg : String)
  | ioError (msg : String)
  | trackingRequestError (status : Nat) (content : Option (List Nat))
      (message : Option String)
  | processResponseFailedError (msg : String)
  | htmlStructureError (msg : String)
  | dateTimeParseError

deriving instance DecidableEq for ErrorType

deriving instance Repr for ErrorType

/-- The Rust `Error` struct holds a `Vec<ErrorType>` called `bases` plus a
captured `Backtrace`; the backtrace is pure diagnostics and is not modelled. -/
structure Error where
  bases : List ErrorType

deriving instance DecidableEq for Error

deriving instance Repr for Error

def Error.new (t : ErrorType) : Error := ⟨[t]⟩

/-- `caused_by` pushes another cause onto the end of the list (Vec::push). -/
def Error.caused_by (e : Error) (t : ErrorType) : Error := ⟨e.bases ++ [t]⟩

/-- Models `Error::from_http_response` (src/main.rs lines 122-134): the
side-effecting `response.read_to_end` is passed in as its result,
`readResult`.  On a read failure the `IoError` is created first and the
`TrackingRequestError` (with `None` body) is appended via `caused_by`. -/
def Error.from_http_response (status : Nat) (readResult : Except String (List Nat))
    (message : Option String) : Error :=
  match readResult with
  | .ok content => Error.new (.trackingRequestError status (some content) message)
  | .error e =>
    (Error.new (.ioError e)).caused_by (.trackingRequestError status none message)

/-- Per-kind description, modelling `StdError::description` (src/main.rs lines
81-94).  Library error kinds defer to the wrapped error's description, carried
here as the stored message. -/
def ErrorType.descriptionOf : ErrorType → String
  | .trackingRequestError _ _ _ => "Request to the tracking service failed"
  | .processResponseFailedError _ => "Cannot process response from the tracking service"
  | .htmlStructureError _ => "Unexpected HTML document structure"
  | .jsonParserError m => m
  | .utf8Error => "invalid utf-8 sequence"
  | .ioError m => m
  | .hyperError m => m
  | .dateTimeParseError => "date parse error"

/-- Models the hyper `StatusCode` display; the reason phrase is immaterial to
every claim, so the numeric code is printed. -/
def statusDisplay (code : Nat) : String := toString code

/-- Models `impl fmt::Display for Error` (src/main.rs lines 59-77).  `none`
models a panic: the code calls `.expect("Error without bases")` on the first
cause and, in the `TrackingRequestError` arm, `.unwrap()` on the optional raw
body. -/
def Error.display (e : Error) : Option String :=
  match e.bases.head? with
  | none => none
  | some (.htmlStructureError m) =>
    some ("Wrong HTML document structure: " ++ m)
  | some (.trackingRequestError code content message) =>
    match content with
    | none => none
    | some c =>
      some (statusDisplay code ++ ": " ++ fromUtf8Lossy c ++ ". " ++
        message.getD "None")
  | some t => some t.descriptionOf

/-- Error values reachable through the public constructors: `Error::new`,
`Error::caused_by`, `Error::from_http_response`.  Every `From` conversion
(src/main.rs lines 140-171) is literally an application of `Error::new`, so
they are covered by the `new` case. -/
inductive Error.Constructible : Error → Prop where
  | new (t : ErrorType) : Error.Constructible (Error.new t)
  | caused_by {e : Error} (t : ErrorType) :
      Error.Constructible e → Error.Constructible (e.caused_by t)
  | from_http (status : Nat) (readResult : Except String (List Nat))
      (message : Option String) :
      Error.Constructible (Error.from_http_response status readResult message)

/-! ## Date parser (src/main.rs lines 317-319)

`_parse_date` calls chrono's `UTC.datetime_from_str(date_str, "%d.%m.%Y %H:%M")`.
chrono is an external library whose sources are not part of this repository. -/

/-- Calendar timestamp, modelling `chrono::DateTime<UTC>` by its fields. -/
structure DateTimeUTC where
  year : Nat
  month : Nat
  day : Nat
  hour : Nat
  minute : Nat
  second : Nat

deriving instance DecidableEq for DateTimeUTC

deriving instance Repr for DateTimeUTC

def isLeapYear (y : Nat) : Bool :=
  y % 4 = 0 ∧ (y % 100 ≠ 0 ∨ y % 400 = 0)

def daysInMonth (y m : Nat) : Nat :=
  if m = 2 then (if isLeapYear y then 29 else 28)
  else if m = 4 ∨ m = 6 ∨ m = 9 ∨ m = 11 then 30
  else 31

/-- Calendar validity of the five parsed fields. -/
def validDate (y m d h n : Nat) : Bool :=
  1 ≤ m ∧ m ≤ 12 ∧ 1 ≤ d ∧ d ≤ daysInMonth y m ∧ h ≤ 23 ∧ n ≤ 59

def digit? (c : Char) : Option Nat :=
  if c.isDigit then some (c.toNat - 48) else none

/-- Read exactly two decimal digits. -/
def read2 : List Char → Option (Nat × List Char)
  | a :: b :: rest =>
    match digit? a, digit? b with
    | some x, some y => some (x * 10 + y, rest)
    | _, _ => none
  | _ => none

/-- Read exactly four decimal digits. -/
def read4 : List Char → Option (Nat × List Char)
  | a :: b :: c :: d :: rest =>
    match digit? a, digit? b, digit? c, digit? d with
    | some w, some x, some y, some z =>
      some (((w * 10 + x) * 10 + y) * 10 + z, rest)
    | _, _, _, _ => none
  | _ => none

/-- Match one literal character. -/
def lit (c : Char) : List Char → Option (List Char)
  | x :: rest => if x = c then some rest else none
  | [] => none

/-- Scanner for the fixed format string `"%d.%m.%Y %H:%M"`: two-digit day,
dot, two-digit month, dot, four-digit year, space, two-digit hour, colon,
two-digit minute, end of input, with the fields forming a real calendar date
and 24-hour time. -/
def scanDate (cs : List Char) : Option DateTimeUTC :=
  (read2 cs).bind fun p1 =>
  (lit '.' p1.2).bind fun r1 =>
  (read2 r1).bind fun p2 =>
  (lit '.' p2.2).bind fun r2 =>
  (read4 r2).bind fun p3 =>
  (lit ' ' p3.2).bind fun r3 =>
  (read2 r3).bind fun p4 =>
  (lit ':' p4.2).bind fun r4 =>
  (read2 r4).bind fun p5 =>
  match p5.2 with
  | [] =>
    if validDate p3.1 p2.1 p1.1 p4.1 p5.1 then
      some ⟨p3.1, p2.1, p1.1, p4.1, p5.1, 0⟩
    else none
  | _ => none

/-- Modelled from the spec: the body of chrono's
`UTC.datetime_from_str(date_str, "%d.%m.%Y %H:%M")` lives in the external
chrono crate, which is not under src/; the specification describes it as
accepting exactly `DD.MM.YYYY HH:MM` (two-digit day, two-digit month,
four-digit year, 24-hour time) interpreted as UTC with seconds zero, and
failing with the date-parse error kind on any deviation.  The call site and
the `From<chrono::ParseError>` error conversion are src/main.rs lines 317-319
and 167-171. -/
def _parse_date (s : String) : Except ErrorType DateTimeUTC :=
  match scanDate s.data with
  | some t => .ok t
  | none => .error .dateTimeParseError

/-! Quick sanity checks of the date parser. -/

example : _parse_date "24.08.2016 11:35" = .ok ⟨2016, 8, 24, 11, 35, 0⟩ := rfl

example : _parse_date "2016-08-24 11:35" = .error .dateTimeParseError := rfl

example : _parse_date "24.08.2016" = .error .dateTimeParseError := rfl

example : _parse_date "24.13.2016 11:35" = .error .dateTimeParseError := rfl

example : _parse_date "29.02.2015 11:35" = .error .dateTimeParseError := rfl

example : _parse_date "29.02.2016 11:35" = .ok ⟨2016, 2, 29, 11, 35, 0⟩ := rfl

/-! ## HTML document model (the `select` crate is an external collaborator)

A parsed document is a forest of element and text nodes.  Only the tag name
and the CSS classes of an element are relevant to the program: `_parse_table`
queries `Class("emsNumber")`, `Name("tr")`, `Name("td")` and `.text()`. -/

mutual
inductive Node where
  | elem (tag : String) (classes : List String) (children : NodeList)
  | text (s : String)
inductive NodeList where
  | nil
  | cons (head : Node) (tail : NodeList)
end

deriving instance DecidableEq for Node

/-- Embed a Lean list of nodes as a `NodeList` (fixture-building helper). -/
def nl : List Node → NodeList
  | [] => .nil
  | n :: ns => .cons n (nl ns)

mutual
/-- All nodes of the subtree rooted at a node, itself included, in document
(pre-)order: the order in which the `select` crate's `find` iterates. -/
def Node.subnodes : Node → List Node
  | .text s => [.text s]
  | .elem t c cs => .elem t c cs :: NodeList.subnodes cs
/-- All nodes of a forest, in document order. -/
def NodeList.subnodes : NodeList → List Node
  | .nil => []
  | .cons n ns => n.subnodes ++ NodeList.subnodes ns
end

/-- Strict descendants of a node: what `node.find(...)` searches. -/
def Node.descendants : Node → List Node
  | .text _ => []
  | .elem _ _ cs => NodeList.subnodes cs

mutual
/-- Concatenated text of all descendant text nodes: `node.text()`. -/
def Node.textContent : Node → String
  | .text s => s
  | .elem _ _ cs => NodeList.textContent cs
def NodeList.textContent : NodeList → String
  | .nil => ""
  | .cons n ns => n.textContent ++ NodeList.textContent ns
end

/-- The `Class(name)` predicate of the `select` crate. -/
def Node.hasClass (c : String) : Node → Bool
  | .elem _ classes _ => classes.contains c
  | .text _ => false

/-- The `Name(tag)` predicate of the `select` crate. -/
def Node.isTag (t : String) : Node → Bool
  | .elem tag _ _ => tag == t
  | .text _ => false

/-- Models `document.find(Class("emsNumber")).first()` (src/main.rs lines
324-327): the first node of the document, in document order, carrying CSS
class `emsNumber`. -/
def findEms (doc : NodeList) : Option Node :=
  (NodeList.subnodes doc).find? (Node.hasClass "emsNumber")

/-- Models `table.find(Name("tr"))`: all `tr` descendants in document order. -/
def trRows (table : Node) : List Node :=
  table.descendants.filter (Node.isTag "tr")

/-- The rows the loop visits: `.iter().skip(1)` drops the header row. -/
def dataRows (table : Node) : List Node :=
  (trRows table).drop 1

/-- Models `row.find(Name("td")).iter().map(|cell| cell.text()).collect()`:
the text of each `td` descendant of the row, in document order. -/
def rowCells (row : Node) : List String :=
  (row.descendants.filter (Node.isTag "td")).map Node.textContent

/-- One tracking event (src/main.rs lines 177-184); all fields default to
`None` as in `TrackingStatusInfo::default()`. -/
structure TrackingStatusInfo where
  date : Option DateTimeUTC := none
  zip_code : Option String := none
  description : Option String := none
  status : Option String := none
  weight : Option String := none

deriving instance DecidableEq for TrackingStatusInfo

deriving instance Repr for TrackingStatusInfo

/-- The loop body of `_parse_table` (src/main.rs lines 332-373), one row at a
time.  A present date cell whose text fails `_parse_date` only logs a warning
(the `warn!` diagnostic is dropped here) and leaves `date` as `None`; a cell
missing at indices 0-4 aborts the whole parse with an `HtmlStructureError`
naming the field. -/
def parseRows : List Node → Except Error (List TrackingStatusInfo)
  | [] => .ok []
  | row :: rest =>
    match (rowCells row).get? 0 with
    | none => .error (Error.new (.htmlStructureError "Cannot get date text from cell"))
    | some dateText =>
      match (rowCells row).get? 1 with
      | none => .error (Error.new (.htmlStructureError "Cannot get zip code text from cell"))
      | some zipText =>
        match (rowCells row).get? 2 with
        | none => .error (Error.new (.htmlStructureError "Cannot get description text from cell"))
        | some descriptionText =>
          match (rowCells row).get? 3 with
          | none => .error (Error.new (.htmlStructureError "Cannot get status text from cell"))
          | some statusText =>
            match (rowCells row).get? 4 with
            | none => .error (Error.new (.htmlStructureError "Cannot get weight text from cell"))
            | some weightText =>
              match parseRows rest with
              | .error e => .error e
              | .ok tail =>
                .ok ({ date := (_parse_date dateText).toOption
                     , zip_code := some zipText
                     , description := some descriptionText
                     , status := some statusText
                     , weight := some weightText } :: tail)

/-- Models `EMSRussianPostRetriever::_parse_table` (src/main.rs lines
321-376).  `htmlParse` stands for `Document::from` of the external `select`
crate; the rest is the source's logic: anchor on the first `emsNumber`-classed
node or fail, then fold the non-header rows. -/
def _parse_table (htmlParse : String → NodeList) (table_str : String) :
    Except Error (List TrackingStatusInfo) :=
  match findEms (htmlParse table_str) with
  | none => .error (Error.new (.htmlStructureError "Class not found: \"emsNumber\""))
  | some table => parseRows (dataRows table)

/-- The message of the `HtmlStructureError` raised when the cell at the given
index is missing (used only in theorem statements). -/
def fieldMessage : Nat → String
  | 0 => "Cannot get date text from cell"
  | 1 => "Cannot get zip code text from cell"
  | 2 => "Cannot get description text from cell"
  | 3 => "Cannot get status text from cell"
  | _ => "Cannot get weight text from cell"

/-- The record `_parse_table` builds from a well-formed row (used only in
theorem statements). -/
def rowRecord (row : Node) : TrackingStatusInfo :=
  { date := (_parse_date ((rowCells row).getD 0 "")).toOption
  , zip_code := some ((rowCells row).getD 1 "")
  , description := some ((rowCells row).getD 2 "")
  , status := some ((rowCells row).getD 3 "")
  , weight := some ((rowCells row).getD 4 "") }

/-! ## The reference fixture (src/main.rs lines 196-266, `CORRECT_DOCUMENT`)

The DOM below transcribes the test fixture markup: an `emsHeader` table, a
stray text node (the raw string contains literal `\r\n\r\n`), and the
`emsNumber` table with one header row of seven `th` cells and three data rows
of seven `td` cells each.  Whitespace-only text nodes between elements are
kept in simplified form; they carry no class, match neither `tr` nor `td`,
and are invisible to every query `_parse_table` makes. -/

def tdN (s : String) : Node := .elem "td" [] (nl [.text s])

def thN (children : List Node) : Node := .elem "th" [] (nl children)

def brN : Node := .elem "br" [] .nil

def trN (children : List Node) : Node := .elem "tr" [] (nl children)

def wsN : Node := .text "\n  "

def fixtureHeaderTable : Node :=
  .elem "table" ["emsHeader"] (nl
    [ wsN
    , trN [wsN, tdN "EMS номер:", wsN, tdN "EP011980873RU", wsN]
    , wsN
    , trN [wsN, tdN "Принято к пересылке:", wsN,
        .elem "td" [] (nl
          [ .text "Санкт-Петербург УКД-2", brN
          , .text "\n    Отправление EMS Обыкновенное", brN
          , .text "\n    Без разряда", brN
          , .text "\n    Без отметки" ]), wsN]
    , wsN
    , trN [wsN, tdN "Отправитель:", wsN, tdN "КОСТЫЛЕВА", wsN]
    , wsN
    , trN [wsN, tdN "Получатель:", wsN, tdN "0", wsN]
    , wsN
    , trN [wsN, tdN "Адресовано:", wsN, tdN "423800, Набережные Челны", wsN]
    , wsN ])

def fixtureNumberTable : Node :=
  .elem "table" ["emsNumber"] (nl
    [ wsN
    , trN
        [ wsN, thN [.text "Дата"]
        , wsN, thN [.text "Почтовый", brN, .text "\n    индекс"]
        , wsN, thN [.text "Описание"]
        , wsN, thN [.text "Статус"]
        , wsN, thN [.text "Вес", brN, .text "\n    (кг.)"]
        , wsN, thN [.text "Объявл.", brN, .text "\n    ценность", brN, .text "\n    (руб.)"]
        , wsN, thN [.text "Налож.", brN, .text "\n    платёж", brN, .text "\n    (руб.)"]
        , wsN ]
    , wsN
    , trN
        [ wsN, tdN "24.11.2016 16:30"
        , wsN, tdN "190882"
        , wsN, tdN "Санкт-Петербург УКД-2"
        , wsN, tdN "Прием, Единичный"
        , wsN, tdN "1.188"
        , wsN, tdN "-"
        , wsN, tdN "-"
        , wsN ]
    , wsN
    , trN
        [ wsN, tdN "24.11.2016 21:56"
        , wsN, tdN "190882"
        , wsN, tdN "Санкт-Петербург УКД-2"
        , wsN, tdN "Покинуло сортировочный центр"
        , wsN, tdN "-"
        , wsN, tdN "-"
        , wsN, tdN "-"
        , wsN ]
    , wsN
    , trN
        [ wsN, tdN "25.11.2016 00:10"
        , wsN, tdN "200994"
        , wsN, tdN "Санкт-Петербург АСЦ EMS"
        , wsN, tdN "Сортировка"
        , wsN, tdN "-"
        , wsN, tdN "-"
        , wsN, tdN "-"
        , wsN ]
    , wsN ])

def fixtureDocument : NodeList :=
  nl [ .text "\n", fixtureHeaderTable, .text "\\r\\n\\r\\n\n", fixtureNumberTable
     , .text "\n" ]

/-- The expected parse of the fixture, as asserted by the source's own test
(src/main.rs lines 280-306). -/
def fixtureRecords : List TrackingStatusInfo :=
  [ { date := some ⟨2016, 11, 24, 16, 30, 0⟩
    , zip_code := some "190882"
    , description := some "Санкт-Петербург УКД-2"
    , status := some "Прием, Единичный"
    , weight := some "1.188" }
  , { date := some ⟨2016, 11, 24, 21, 56, 0⟩
    , zip_code := some "190882"
    , description := some "Санкт-Петербург УКД-2"
    , status := some "Покинуло сортировочный центр"
    , weight := some "-" }
  , { date := some ⟨2016, 11, 25, 0, 10, 0⟩
    , zip_code := some "200994"
    , description := some "Санкт-Петербург АСЦ EMS"
    , status := some "Сортировка"
    , weight := some "-" } ]

example : _parse_table (fun _ => fixtureDocument) "" = .ok fixtureRecords := by
  rfl

/-! ## JSON (models the external `rustc_serialize::json` crate)

Only the shape of a JSON value matters downstream (`as_object`, `get("d")`,
`as_string`), so numbers keep their raw text instead of a float value. -/

inductive Json where
  | null
  | bool (b : Bool)
  | num (raw : String)
  | str (s : String)
  | arr (items : List Json)
  | obj (pairs : List (String × Json))

def lbrace : Char := Char.ofNat 123

def rbrace : Char := Char.ofNat 125

def isWs (c : Char) : Prop := c = ' ' ∨ c = '\t' ∨ c = '\n' ∨ c = '\r'

instance (c : Char) : Decidable (isWs c) := by
  unfold isWs
  infer_instance

def skipWs : List Char → List Char
  | [] => []
  | c :: rest => if isWs c then skipWs rest else c :: rest

def hexVal (c : Char) : Option Nat :=
  if c.isDigit then some (c.toNat - 48)
  else if 'a' ≤ c ∧ c ≤ 'f' then some (c.toNat - 87)
  else if 'A' ≤ c ∧ c ≤ 'F' then some (c.toNat - 55)
  else none

def hexVal4 (h1 h2 h3 h4 : Char) : Option Nat :=
  (hexVal h1).bind fun v1 =>
  (hexVal h2).bind fun v2 =>
  (hexVal h3).bind fun v3 =>
  (hexVal h4).map fun v4 =>
  ((v1 * 16 + v2) * 16 + v3) * 16 + v4

/-- Single-character JSON escapes. -/
def escChar (c : Char) : Option Char :=
  if c = '"' then some '"'
  else if c = '\\' then some '\\'
  else if c = '/' then some '/'
  else if c = 'b' then some (Char.ofNat 8)
  else if c = 'f' then some (Char.ofNat 12)
  else if c = 'n' then some '\n'
  else if c = 'r' then some '\r'
  else if c = 't' then some '\t'
  else none

mutual
/-- Body of a JSON string literal, after the opening quote: returns the
decoded characters and the input after the closing quote.  Handles the
escapes `rustc_serialize` accepts, including `\uXXXX` with surrogate pairs,
and rejects raw control characters. -/
def parseStringBody : List Char → Except String (List Char × List Char)
  | [] => .error "EOF while parsing string"
  | c :: rest =>
    if c = '"' then .ok ([], rest)
    else if c = '\\' then parseEscape rest
    else if c.toNat < 0x20 then .error "control character in string"
    else (parseStringBody rest).map (fun p => (c :: p.1, p.2))
/-- After a backslash inside a string literal. -/
def parseEscape : List Char → Except String (List Char × List Char)
  | [] => .error "EOF while parsing escape"
  | e :: rest2 =>
    if e = 'u' then parseHexEscape rest2
    else
      match escChar e with
      | some d => (parseStringBody rest2).map (fun p => (d :: p.1, p.2))
      | none => .error "invalid escape"
/-- After `\u` inside a string literal: four hex digits, possibly a high
surrogate that must pair with a following `\uXXXX` low surrogate. -/
def parseHexEscape : List Char → Except String (List Char × List Char)
  | h1 :: h2 :: h3 :: h4 :: rest3 =>
    match hexVal4 h1 h2 h3 h4 with
    | none => .error "invalid hex escape"
    | some v =>
      if v < 0xD800 ∨ 0xE000 ≤ v then
        (parseStringBody rest3).map (fun p => (Char.ofNat v :: p.1, p.2))
      else if v ≤ 0xDBFF then parseLowSurrogate v rest3
      else .error "lone low surrogate"
  | _ => .error "invalid hex escape"
/-- A low surrogate escape completing a high surrogate `v`. -/
def parseLowSurrogate (v : Nat) : List Char → Except String (List Char × List Char)
  | s1 :: s2 :: g1 :: g2 :: g3 :: g4 :: rest4 =>
    if s1 = '\\' ∧ s2 = 'u' then
      match hexVal4 g1 g2 g3 g4 with
      | none => .error "invalid hex escape"
      | some w =>
        if 0xDC00 ≤ w ∧ w ≤ 0xDFFF then
          (parseStringBody rest4).map
            (fun p =>
              (Char.ofNat (0x10000 + (v - 0xD800) * 0x400 + (w - 0xDC00)) :: p.1, p.2))
        else .error "invalid low surrogate"
    else .error "expected low surrogate escape"
  | _ => .error "expected low surrogate escape"
end

def takeDigits : List Char → List Char × List Char
  | [] => ([], [])
  | c :: rest =>
    if c.isDigit then
      let p := takeDigits rest
      (c :: p.1, p.2)
    else ([], c :: rest)

/-- Integer part: `0` alone, or a nonzero digit followed by digits. -/
def parseIntPart : List Char → Except String (List Char × List Char)
  | [] => .error "EOF while parsing number"
  | c :: rest =>
    if c = '0' then .ok (['0'], rest)
    else if c.isDigit then
      let p := takeDigits rest
      .ok (c :: p.1, p.2)
    else .error "invalid number"

def parseFracPart : List Char → Except String (List Char × List Char)
  | '.' :: rest =>
    match takeDigits rest with
    | ([], _) => .error "invalid fraction"
    | (ds, r) => .ok ('.' :: ds, r)
  | cs => .ok ([], cs)

def parseExpPart : List Char → Except String (List Char × List Char)
  | [] => .ok ([], [])
  | c :: rest =>
    if c = 'e' ∨ c = 'E' then
      match rest with
      | [] => .error "invalid exponent"
      | s :: rest2 =>
        if s = '+' ∨ s = '-' then
          match takeDigits rest2 with
          | ([], _) => .error "invalid exponent"
          | (ds, r) => .ok (c :: s :: ds, r)
        else
          match takeDigits rest with
          | ([], _) => .error "invalid exponent"
          | (ds, r) => .ok (c :: ds, r)
    else .ok ([], c :: rest)

/-- A JSON number; the raw text is kept. -/
def parseNumber (cs : List Char) : Except String (Json × List Char) :=
  match cs with
  | '-' :: rest =>
    (parseIntPart rest).bind fun ip =>
    (parseFracPart ip.2).bind fun fp =>
    (parseExpPart fp.2).map fun ep =>
    (.num (String.mk ('-' :: ip.1 ++ fp.1 ++ ep.1)), ep.2)
  | _ =>
    (parseIntPart cs).bind fun ip =>
    (parseFracPart ip.2).bind fun fp =>
    (parseExpPart fp.2).map fun ep =>
    (.num (String.mk (ip.1 ++ fp.1 ++ ep.1)), ep.2)

/-- A fixed literal (`true`, `false`, `null`) after its first character. -/
def parseLit (expect : List Char) (j : Json) (cs : List Char) :
    Except String (Json × List Char) :=
  if expect.isPrefixOf cs then .ok (j, cs.drop expect.length)
  else .error "invalid syntax"

mutual
/-- A JSON value, with leading whitespace allowed.  The fuel argument only
bounds recursion depth (it decreases at every step); `Json.fromStr` supplies
more than any input can consume. -/
def parseValue : Nat → List Char → Except String (Json × List Char)
  | 0, _ => .error "recursion limit exceeded"
  | fuel + 1, cs => parseValueCore fuel (skipWs cs)

/-- A JSON value, whitespace already skipped. -/
def parseValueCore : Nat → List Char → Except String (Json × List Char)
  | 0, _ => .error "recursion limit exceeded"
  | _ + 1, [] => .error "EOF while parsing value"
  | fuel + 1, c :: rest =>
    if c = lbrace then parseObjStart fuel (skipWs rest)
    else if c = '[' then parseArrStart fuel (skipWs rest)
    else if c = '"' then
      (parseStringBody rest).map (fun p => (.str (String.mk p.1), p.2))
    else if c = 't' then parseLit ['r', 'u', 'e'] (.bool true) rest
    else if c = 'f' then parseLit ['a', 'l', 's', 'e'] (.bool false) rest
    else if c = 'n' then parseLit ['u', 'l', 'l'] .null rest
    else if c = '-' ∨ c.isDigit then parseNumber (c :: rest)
    else .error "invalid syntax"

/-- Directly after the opening brace of an object, whitespace skipped. -/
def parseObjStart : Nat → List Char → Except String (Json × List Char)
  | 0, _ => .error "recursion limit exceeded"
  | _ + 1, [] => .error "EOF while parsing object"
  | fuel + 1, c2 :: r2 =>
    if c2 = rbrace then .ok (.obj [], r2)
    else (parseMembers fuel (c2 :: r2)).map (fun q => (.obj q.1, q.2))

/-- Directly after the opening bracket of an array, whitespace skipped. -/
def parseArrStart : Nat → List Char → Except String (Json × List Char)
  | 0, _ => .error "recursion limit exceeded"
  | _ + 1, [] => .error "EOF while parsing list"
  | fuel + 1, c2 :: r2 =>
    if c2 = ']' then .ok (.arr [], r2)
    else (parseElements fuel (c2 :: r2)).map (fun q => (.arr q.1, q.2))

/-- One or more comma-separated array elements, ending at `]`. -/
def parseElements : Nat → List Char → Except String (List Json × List Char)
  | 0, _ => .error "recursion limit exceeded"
  | fuel + 1, cs =>
    (parseValue fuel cs).bind (fun p => parseElemRest fuel p.1 (skipWs p.2))

/-- After one array element: a comma and more elements, or the closing
bracket. -/
def parseElemRest : Nat → Json → List Char → Except String (List Json × List Char)
  | 0, _, _ => .error "recursion limit exceeded"
  | _ + 1, _, [] => .error "EOF while parsing list"
  | fuel + 1, v, c :: r =>
    if c = ',' then (parseElements fuel r).map (fun q => (v :: q.1, q.2))
    else if c = ']' then .ok ([v], r)
    else .error "expected comma or end of list"

/-- One or more comma-separated `"key": value` members, ending at the closing
brace; the input starts at the first key with whitespace already skipped. -/
def parseMembers : Nat → List Char → Except String (List (String × Json) × List Char)
  | 0, _ => .error "recursion limit exceeded"
  | _ + 1, [] => .error "key expected"
  | fuel + 1, c :: rest =>
    if c = '"' then
      (parseStringBody rest).bind
        (fun kp => parseMemberColon fuel (String.mk kp.1) (skipWs kp.2))
    else .error "key must be a string"

/-- After an object key: the colon and the value. -/
def parseMemberColon : Nat → String → List Char → Except String (List (String × Json) × List Char)
  | 0, _, _ => .error "recursion limit exceeded"
  | _ + 1, _, [] => .error "colon expected"
  | fuel + 1, k, c2 :: r2 =>
    if c2 = ':' then
      (parseValue fuel r2).bind (fun vp => parseMemberRest fuel k vp.1 (skipWs vp.2))
    else .error "colon expected"

/-- After one `key: value` member: a comma and more members, or the closing
brace. -/
def parseMemberRest :
    Nat → String → Json → List Char → Except String (List (String × Json) × List Char)
  | 0, _, _, _ => .error "recursion limit exceeded"
  | _ + 1, _, _, [] => .error "EOF while parsing object"
  | fuel + 1, k, v, c3 :: r3 =>
    if c3 = ',' then (parseMembers fuel (skipWs r3)).map (fun q => ((k, v) :: q.1, q.2))
    else if c3 = rbrace then .ok ([(k, v)], r3)
    else .error "expected comma or end of object"
end

/-- Models `Json::from_str`: parse one value and insist on nothing but
whitespace after it. -/
def Json.fromStr (s : String) : Except String Json :=
  match parseValue (8 * s.data.length + 8) s.data with
  | .error e => .error e
  | .ok p =>
    match skipWs p.2 with
    | [] => .ok p.1
    | _ => .error "trailing characters"

def Json.asObject : Json → Option (List (String × Json))
  | .obj pairs => some pairs
  | _ => none

def Json.asString : Json → Option String
  | .str s => some s
  | _ => none

/-- Object member lookup (`root_object.get("d")`). -/
def jsonGet (pairs : List (String × Json)) (key : String) : Option Json :=
  (pairs.find? (fun p => p.1 == key)).map (fun p => p.2)

/-! ## Envelope and response processing (src/main.rs lines 311-315, 378-389) -/

/-- Models `EMSRussianPostRetriever::_parse_json`: UTF-8-decode the response
bytes (`std::str::from_utf8(response)?`, converted to a `Utf8Error` cause),
then JSON-parse them (`Json::from_str(data)?`, converted to a
`JsonParserError` cause). -/
def _parse_json (response : List Nat) : Except Error Json :=
  match utf8Decode response with
  | none => .error (Error.new .utf8Error)
  | some chars =>
    match Json.fromStr (String.mk chars) with
    | .error e => .error (Error.new (.jsonParserError e))
    | .ok j => .ok j

/-- The envelope extraction chain of `_process_response` (src/main.rs lines
382-386): `root_json.as_object().and_then(|o| o.get("d")).and_then(|d|
d.as_string())`. -/
def envelopeString (root_json : Json) : Option String :=
  (root_json.asObject.bind (fun root_object => jsonGet root_object "d")).bind
    Json.asString

/-- Models `EMSRussianPostRetriever::_process_response`: after `_parse_json`,
require an object with a string under key `"d"`
(`as_object / get("d") / as_string`, else `ProcessResponseFailedError("Wrong
JSON content")`), then feed that string to `_parse_table`. -/
def _process_response (htmlParse : String → NodeList) (response : List Nat) :
    Except Error (List TrackingStatusInfo) :=
  match _parse_json response with
  | .error e => .error e
  | .ok root_json =>
    match envelopeString root_json with
    | none => .error (Error.new (.processResponseFailedError "Wrong JSON content"))
    | some table_str => _parse_table htmlParse table_str

/-- Minimal JSON string escaping: quote, backslash, and `\u00XX` for control
characters; every other scalar is emitted raw (JSON allows this). -/
def escapeJsonChar (c : Char) : List Char :=
  if c = '"' then ['\\', '"']
  else if c = '\\' then ['\\', '\\']
  else if c.toNat < 0x20 then
    ['\\', 'u', '0', '0', Nat.digitChar (c.toNat / 16), Nat.digitChar (c.toNat % 16)]
  else [c]

def escapeJson : List Char → List Char
  | [] => []
  | c :: cs => escapeJsonChar c ++ escapeJson cs

/-- The characters of the JSON document whose single key `"d"` maps to the
string `h`. -/
def envelopeChars (h : String) : List Char :=
  lbrace :: '"' :: 'd' :: '"' :: ':' :: '"' ::
    (escapeJson h.data ++ '"' :: rbrace :: [])

/-- The UTF-8 bytes of the JSON object whose single key `"d"` maps to `h`. -/
def jsonEnvelopeBytes (h : String) : List Nat :=
  utf8Encode (envelopeChars h)

/-! ## Row-level lemmas about `parseRows` -/

/-- A row with fewer than five cells aborts the parse, naming the first
missing field (whose index is the number of cells present). -/
theorem parseRows_short (row : Node) (rest : List Node)
    (h : (rowCells row).length < 5) :
    parseRows (row :: rest) =
      .error (Error.new (.htmlStructureError (fieldMessage (rowCells row).length))) := by
  rcases hc : rowCells row with _ | ⟨c0, csr⟩
  · simp [parseRows, hc, fieldMessage]
  · rcases csr with _ | ⟨c1, csr⟩
    · simp [parseRows, hc, fieldMessage]
    · rcases csr with _ | ⟨c2, csr⟩
      · simp [parseRows, hc, fieldMessage]
      · rcases csr with _ | ⟨c3, csr⟩
        · simp [parseRows, hc, fieldMessage]
        · rcases csr with _ | ⟨c4, csr⟩
          · simp [parseRows, hc, fieldMessage]
          · rw [hc] at h
            simp at h
            omega

/-- A row with at least five cells contributes `rowRecord row` and the parse
continues with the remaining rows. -/
theorem parseRows_step (row : Node) (rest : List Node)
    (h5 : 5 ≤ (rowCells row).length) :
    parseRows (row :: rest) =
      match parseRows rest with
      | .error e => .error e
      | .ok tail => .ok (rowRecord row :: tail) := by
  rcases hc : rowCells row with _ | ⟨c0, _ | ⟨c1, _ | ⟨c2, _ | ⟨c3, _ | ⟨c4, cs⟩⟩⟩⟩⟩ <;>
    simp [hc] at h5 <;>
    simp [parseRows, hc, rowRecord, List.getD] <;>
    rfl

/-- When every row has at least five cells the parse succeeds and maps
`rowRecord` over the rows in document order. -/
theorem parseRows_wellformed (rows : List Node)
    (hwf : ∀ r ∈ rows, 5 ≤ (rowCells r).length) :
    parseRows rows = .ok (rows.map rowRecord) := by
  induction rows with
  | nil => rfl
  | cons row rest ih =>
    rw [parseRows_step row rest (hwf row (List.mem_cons_self row rest))]
    rw [ih (fun r hr => hwf r (List.mem_cons_of_mem row hr))]
    rfl

/-- When some row has fewer than five cells the whole parse fails with an
`HtmlStructureError` naming a field whose cell is absent in some row. -/
theorem parseRows_deficient (rows : List Node)
    (hdef : ∃ r ∈ rows, (rowCells r).length < 5) :
    ∃ k r, k < 5 ∧ r ∈ rows ∧ (rowCells r).length ≤ k ∧
      parseRows rows = .error (Error.new (.htmlStructureError (fieldMessage k))) := by
  induction rows with
  | nil => simp at hdef
  | cons row rest ih =>
    by_cases hrow : (rowCells row).length < 5
    · exact ⟨(rowCells row).length, row, hrow, List.mem_cons_self row rest,
        le_refl _, parseRows_short row rest hrow⟩
    · have hrest : ∃ r ∈ rest, (rowCells r).length < 5 := by
        rcases hdef with ⟨r, hr, hlen⟩
        rcases List.mem_cons.mp hr with h | h
        · rw [h] at hlen
          exact absurd hlen hrow
        · exact ⟨r, h, hlen⟩
      rcases ih hrest with ⟨k, r, hk, hmem, hlen, herr⟩
      refine ⟨k, r, hk, List.mem_cons_of_mem row hmem, hlen, ?_⟩
      rw [parseRows_step row rest (by omega), herr]

/-- C1: for the reference fixture document, `_parse_table` returns Ok with
exactly the three records of the source's own test, in document order: dates
2016-11-24T16:30, 2016-11-24T21:56 and 2016-11-25T00:10 UTC all present, zip
codes "190882", "190882", "200994", the fixture's descriptions and statuses,
and weights "1.188", "-", "-"; the two extra trailing td columns of each data
row are ignored and the header row contributes no record. -/
theorem claim_C1_fixture_parse (htmlParse : String → NodeList) (s : String)
    (hdoc : htmlParse s = fixtureDocument) :
    _parse_table htmlParse s = .ok fixtureRecords := by
  unfold _parse_table
  rw [hdoc]
  rfl

theorem claim_C1_fixture_parse_witness :
    _parse_table (fun _ => fixtureDocument) "" = .ok fixtureRecords :=
  claim_C1_fixture_parse (fun _ => fixtureDocument) "" rfl

/-- C4: on a document without any `emsNumber`-classed node, `_parse_table`
fails with `HtmlStructureError "Class not found: \"emsNumber\""`; being a
total function it cannot panic, and the error result is in particular not an
empty success. -/
theorem claim_C4_no_anchor (htmlParse : String → NodeList) (s : String)
    (hno : ∀ n ∈ NodeList.subnodes (htmlParse s), n.hasClass "emsNumber" = false) :
    _parse_table htmlParse s =
      .error (Error.new (.htmlStructureError "Class not found: \"emsNumber\"")) := by
  unfold _parse_table
  have hfind : findEms (htmlParse s) = none := by
    unfold findEms
    rw [List.find?_eq_none]
    intro n hn
    simp [hno n hn]
  rw [hfind]

theorem claim_C4_no_anchor_witness :
    _parse_table (fun _ => nl [fixtureHeaderTable]) "" =
      .error (Error.new (.htmlStructureError "Class not found: \"emsNumber\"")) :=
  claim_C4_no_anchor (fun _ => nl [fixtureHeaderTable]) "" (by decide)

/-- C8: when the anchored element has at most one `tr` row (a header only, or
none at all), skipping row 0 leaves nothing to parse and `_parse_table`
succeeds with the empty sequence. -/
theorem claim_C8_header_only (htmlParse : String → NodeList) (s : String) (table : Node)
    (hfind : findEms (htmlParse s) = some table)
    (hrows : (trRows table).length ≤ 1) :
    _parse_table htmlParse s = .ok [] := by
  unfold _parse_table
  rw [hfind]
  show parseRows (dataRows table) = Except.ok []
  have hnil : dataRows table = [] := by
    unfold dataRows
    exact List.drop_eq_nil_of_le hrows
  rw [hnil]
  rfl

theorem claim_C8_header_only_witness :
    _parse_table (fun _ => nl [Node.elem "table" ["emsNumber"] .nil]) "" = .ok [] :=
  claim_C8_header_only (fun _ => nl [Node.elem "table" ["emsNumber"] .nil]) ""
    (Node.elem "table" ["emsNumber"] .nil) rfl (by decide)

/-- C2: with the anchor found, a non-header row with fewer than five td cells
makes the whole parse fail with an `HtmlStructureError` whose message names a
field whose cell is missing (index `k`, with that row holding at most `k`
cells); nothing of the already-collected rows is returned. -/
theorem claim_C2_missing_cell (htmlParse : String → NodeList) (s : String) (table : Node)
    (hfind : findEms (htmlParse s) = some table)
    (hdef : ∃ r ∈ dataRows table, (rowCells r).length < 5) :
    ∃ k r, k < 5 ∧ r ∈ dataRows table ∧ (rowCells r).length ≤ k ∧
      _parse_table htmlParse s =
        .error (Error.new (.htmlStructureError (fieldMessage k))) := by
  rcases parseRows_deficient (dataRows table) hdef with ⟨k, r, hk, hmem, hlen, herr⟩
  refine ⟨k, r, hk, hmem, hlen, ?_⟩
  unfold _parse_table
  rw [hfind]
  exact herr

def shortRow : Node :=
  trN [tdN "25.11.2016 00:10", tdN "200994", tdN "Санкт-Петербург АСЦ EMS", tdN "Сортировка"]

def shortRowDocument : NodeList :=
  nl [Node.elem "table" ["emsNumber"] (nl [trN [tdN "header"], trN [tdN "24.11.2016 16:30", tdN "190882", tdN "desc", tdN "status", tdN "1.188"], shortRow])]

theorem claim_C2_missing_cell_witness :
    ∃ k r, k < 5 ∧ r ∈ dataRows (Node.elem "table" ["emsNumber"] (nl [trN [tdN "header"], trN [tdN "24.11.2016 16:30", tdN "190882", tdN "desc", tdN "status", tdN "1.188"], shortRow])) ∧
      (rowCells r).length ≤ k ∧
      _parse_table (fun _ => shortRowDocument) "" =
        .error (Error.new (.htmlStructureError (fieldMessage k))) :=
  claim_C2_missing_cell (fun _ => shortRowDocument) "" _ rfl ⟨shortRow, by decide, by decide⟩

/-- C3: with the anchor found and every non-header row carrying at least five
td cells, a row whose date cell text fails `_parse_date` is still kept: the
parse succeeds, the row's record appears at the row's position with `date`
absent and the zip code, description, status and weight taken from cells 1-4. -/
theorem claim_C3_bad_date_recoverable (htmlParse : String → NodeList) (s : String)
    (table : Node) (j : Nat) (row : Node)
    (hfind : findEms (htmlParse s) = some table)
    (hwf : ∀ r ∈ dataRows table, 5 ≤ (rowCells r).length)
    (hrow : (dataRows table).get? j = some row)
    (hbad : _parse_date ((rowCells row).getD 0 "") = .error .dateTimeParseError) :
    ∃ l, _parse_table htmlParse s = .ok l ∧
      l.get? j = some (rowRecord row) ∧
      (rowRecord row).date = none ∧
      (rowRecord row).zip_code = some ((rowCells row).getD 1 "") ∧
      (rowRecord row).description = some ((rowCells row).getD 2 "") ∧
      (rowRecord row).status = some ((rowCells row).getD 3 "") ∧
      (rowRecord row).weight = some ((rowCells row).getD 4 "") := by
  refine ⟨(dataRows table).map rowRecord, ?_, ?_, ?_, rfl, rfl, rfl, rfl⟩
  · unfold _parse_table
    rw [hfind]
    exact parseRows_wellformed _ hwf
  · rw [List.get?_map, hrow]
    rfl
  · show (_parse_date ((rowCells row).getD 0 "")).toOption = none
    rw [hbad]
    rfl

def badDateRow : Node :=
  trN [tdN "tomorrow", tdN "190882", tdN "desc", tdN "status", tdN "1.188"]

def badDateDocument : NodeList :=
  nl [Node.elem "table" ["emsNumber"] (nl [trN [tdN "header"], badDateRow])]

theorem claim_C3_bad_date_recoverable_witness :
    ∃ l, _parse_table (fun _ => badDateDocument) "" = .ok l ∧
      l.get? 0 = some (rowRecord badDateRow) ∧
      (rowRecord badDateRow).date = none ∧
      (rowRecord badDateRow).zip_code = some ((rowCells badDateRow).getD 1 "") ∧
      (rowRecord badDateRow).description = some ((rowCells badDateRow).getD 2 "") ∧
      (rowRecord badDateRow).status = some ((rowCells badDateRow).getD 3 "") ∧
      (rowRecord badDateRow).weight = some ((rowCells badDateRow).getD 4 "") :=
  claim_C3_bad_date_recoverable (fun _ => badDateDocument) "" _ 0 badDateRow rfl
    (by decide) rfl rfl

/-- C9 (amended): when reading the body of a rejected response fails,
`from_http_response` records the `IoError` as the FIRST cause and appends the
`TrackingRequestError` (status, absent body, context message) after it via
`caused_by` — the opposite order from the claim. -/
theorem claim_C9_cause_order (status : Nat) (err : String) (message : Option String) :
    (Error.from_http_response status (.error err) message).bases =
      [.ioError err, .trackingRequestError status none message] := rfl

/-- C9 counterexample: at a concrete rejected response whose body read fails,
the first recorded cause is the `IoError`, not the `TrackingRequestError`
(with absent body and the fixed context message) that the claim puts first. -/
theorem claim_C9_claimed_order_false :
    (Error.from_http_response 500 (.error "read failed")
        (some "Cannot get tracking data from EMS Russian Post")).bases.head? =
      some (.ioError "read failed") ∧
    (Error.from_http_response 500 (.error "read failed")
        (some "Cannot get tracking data from EMS Russian Post")).bases.head? ≠
      some (.trackingRequestError 500 none
        (some "Cannot get tracking data from EMS Russian Post")) := by
  constructor
  · rfl
  · decide

/-- C10 (amended): every error reachable through the public constructors has
a non-empty cause list, and rendering is total except when the first cause is
a `TrackingRequestError` with an absent raw body, where `Display` unwraps the
body and panics; `from_http_response` itself never puts that shape first. -/
theorem claim_C10_render (e : Error) (hc : Error.Constructible e) :
    e.bases ≠ [] ∧
    ((∀ status message, e.bases.head? ≠ some (.trackingRequestError status none message)) →
      ∃ s, e.display = some s) := by
  have hne : e.bases ≠ [] := by
    induction hc with
    | new t => simp [Error.new]
    | caused_by t _ ih => simp [Error.caused_by]
    | from_http status readResult message =>
      cases readResult <;> simp [Error.from_http_response, Error.new, Error.caused_by]
  refine ⟨hne, ?_⟩
  intro hhead
  rcases hb : e.bases with _ | ⟨b, rest⟩
  · exact absurd hb hne
  · cases b with
    | trackingRequestError st content msg =>
      cases content with
      | none =>
        exfalso
        apply hhead st msg
        rw [hb]
        rfl
      | some c =>
        exact ⟨statusDisplay st ++ ": " ++ fromUtf8Lossy c ++ ". " ++ msg.getD "None",
          by unfold Error.display; rw [hb]; rfl⟩
    | jsonParserError m => exact ⟨m, by unfold Error.display; rw [hb]; rfl⟩
    | utf8Error =>
      exact ⟨ErrorType.utf8Error.descriptionOf, by unfold Error.display; rw [hb]; rfl⟩
    | hyperError m => exact ⟨m, by unfold Error.display; rw [hb]; rfl⟩
    | ioError m => exact ⟨m, by unfold Error.display; rw [hb]; rfl⟩
    | processResponseFailedError m =>
      exact ⟨(ErrorType.processResponseFailedError m).descriptionOf,
        by unfold Error.display; rw [hb]; rfl⟩
    | htmlStructureError m =>
      exact ⟨"Wrong HTML document structure: " ++ m, by unfold Error.display; rw [hb]; rfl⟩
    | dateTimeParseError =>
      exact ⟨ErrorType.dateTimeParseError.descriptionOf, by unfold Error.display; rw [hb]; rfl⟩

theorem claim_C10_render_witness :
    (Error.from_http_response 404 (.ok [72, 105]) (some "ctx")).bases ≠ [] ∧
    ∃ s, (Error.from_http_response 404 (.ok [72, 105]) (some "ctx")).display = some s := by
  have h := claim_C10_render (Error.from_http_response 404 (.ok [72, 105]) (some "ctx"))
    (Error.Constructible.from_http 404 (.ok [72, 105]) (some "ctx"))
  refine ⟨h.1, h.2 ?_⟩
  intro st msg hcontra
  simp [Error.from_http_response, Error.new] at hcontra

/-- C10 counterexample: `Error::new` is public, so an error whose single
cause is a `TrackingRequestError` with an absent raw body is constructible,
and rendering it panics (`content.as_ref().unwrap()` on `None`, modelled as
`none`) instead of producing a message. -/
theorem claim_C10_render_total_false :
    Error.Constructible (Error.new (.trackingRequestError 500 none
      (some "Cannot get tracking data from EMS Russian Post"))) ∧
    (Error.new (.trackingRequestError 500 none
      (some "Cannot get tracking data from EMS Russian Post"))).display = none :=
  ⟨Error.Constructible.new _, rfl⟩

/-! ## Characterizing the date format -/

def pad2 (n : Nat) : List Char := [Nat.digitChar (n / 10), Nat.digitChar (n % 10)]

def pad4 (n : Nat) : List Char :=
  [Nat.digitChar (n / 1000), Nat.digitChar (n / 100 % 10),
   Nat.digitChar (n / 10 % 10), Nat.digitChar (n % 10)]

/-- The zero-padded print `DD.MM.YYYY HH:MM` of five numeric fields. -/
def dateFormatString (d m y h n : Nat) : String :=
  String.mk (pad2 d ++ '.' :: (pad2 m ++ '.' :: (pad4 y ++ ' ' :: (pad2 h ++ ':' :: pad2 n))))

/-- The spec's date pattern, written from its words: a two-digit day, dot,
two-digit month, dot, four-digit year, space, two-digit hour, colon,
two-digit minute — nothing else — with the fields in calendar range. -/
def MatchesDateFormat (s : String) : Prop :=
  ∃ d m y h n, d < 100 ∧ m < 100 ∧ y < 10000 ∧ h < 100 ∧ n < 100 ∧
    s = dateFormatString d m y h n ∧ validDate y m d h n = true

theorem digit?_digitChar : ∀ k, k < 10 → digit? (Nat.digitChar k) = some k := by
  decide

theorem read2_pad2 (v : Nat) (hv : v < 100) (rest : List Char) :
    read2 (pad2 v ++ rest) = some (v, rest) := by
  have h1 : v / 10 < 10 := by omega
  have h2 : v % 10 < 10 := by omega
  simp [pad2, read2, digit?_digitChar _ h1, digit?_digitChar _ h2]
  omega

theorem read4_pad4 (v : Nat) (hv : v < 10000) (rest : List Char) :
    read4 (pad4 v ++ rest) = some (v, rest) := by
  have h1 : v / 1000 < 10 := by omega
  have h2 : v / 100 % 10 < 10 := by omega
  have h3 : v / 10 % 10 < 10 := by omega
  have h4 : v % 10 < 10 := by omega
  simp [pad4, read4, digit?_digitChar _ h1, digit?_digitChar _ h2,
    digit?_digitChar _ h3, digit?_digitChar _ h4]
  omega

theorem lit_cons (c : Char) (rest : List Char) : lit c (c :: rest) = some rest := by
  simp [lit]

theorem read2_inv (cs : List Char) (v : Nat) (rest : List Char)
    (h : read2 cs = some (v, rest)) : v < 100 ∧ cs = pad2 v ++ rest := by
  match cs with
  | [] => simp [read2] at h
  | [a] => simp [read2] at h
  | a :: b :: t =>
    have hr : read2 (a :: b :: t) =
        (match digit? a, digit? b with
         | some x, some y => some (x * 10 + y, t)
         | _, _ => none) := rfl
    rw [hr] at h
    cases hda : digit? a with
    | none => rw [hda] at h; simp at h
    | some x =>
      cases hdb : digit? b with
      | none => rw [hda, hdb] at h; simp at h
      | some y =>
        rw [hda, hdb] at h
        simp at h
        obtain ⟨hv, hrest⟩ := h
        unfold digit? at hda hdb
        by_cases ha : a.isDigit = true
        · by_cases hbd : b.isDigit = true
          · rw [if_pos ha] at hda
            rw [if_pos hbd] at hdb
            have hab := char_isDigit_bounds a ha
            have hbb := char_isDigit_bounds b hbd
            have hx : x = a.toNat - 48 := by exact (Option.some_inj.mp hda).symm
            have hy : y = b.toNat - 48 := by exact (Option.some_inj.mp hdb).symm
            have hx10 : x < 10 := by omega
            have hy10 : y < 10 := by omega
            constructor
            · omega
            · rw [hrest]
              have hva : v / 10 = x := by omega
              have hvb : v % 10 = y := by omega
              have hca : Nat.digitChar (v / 10) = a := by
                apply char_toNat_inj
                rw [hva, digitChar_toNat x hx10]
                omega
              have hcb : Nat.digitChar (v % 10) = b := by
                apply char_toNat_inj
                rw [hvb, digitChar_toNat y hy10]
                omega
              simp [pad2, hca, hcb]
          · rw [if_neg hbd] at hdb
            exact absurd hdb (by simp)
        · rw [if_neg ha] at hda
          exact absurd hda (by simp)

theorem read4_inv (cs : List Char) (v : Nat) (rest : List Char)
    (h : read4 cs = some (v, rest)) : v < 10000 ∧ cs = pad4 v ++ rest := by
  match cs with
  | [] => simp [read4] at h
  | [a] => simp [read4] at h
  | [a, b] => simp [read4] at h
  | [a, b, c] => simp [read4] at h
  | a :: b :: c :: d :: t =>
    have hr : read4 (a :: b :: c :: d :: t) =
        (match digit? a, digit? b, digit? c, digit? d with
         | some w, some x, some y, some z => some (((w * 10 + x) * 10 + y) * 10 + z, t)
         | _, _, _, _ => none) := rfl
    rw [hr] at h
    cases hda : digit? a with
    | none => rw [hda] at h; simp at h
    | some w =>
      cases hdb : digit? b with
      | none => rw [hda, hdb] at h; simp at h
      | some x =>
        cases hdc : digit? c with
        | none => rw [hda, hdb, hdc] at h; simp at h
        | some y =>
          cases hdd : digit? d with
          | none => rw [hda, hdb, hdc, hdd] at h; simp at h
          | some z =>
            rw [hda, hdb, hdc, hdd] at h
            simp at h
            obtain ⟨hv, hrest⟩ := h
            unfold digit? at hda hdb hdc hdd
            by_cases ha : a.isDigit = true
            case neg => rw [if_neg ha] at hda; exact absurd hda (by simp)
            by_cases hb : b.isDigit = true
            case neg => rw [if_neg hb] at hdb; exact absurd hdb (by simp)
            by_cases hc : c.isDigit = true
            case neg => rw [if_neg hc] at hdc; exact absurd hdc (by simp)
            by_cases hd : d.isDigit = true
            case neg => rw [if_neg hd] at hdd; exact absurd hdd (by simp)
            rw [if_pos ha] at hda
            rw [if_pos hb] at hdb
            rw [if_pos hc] at hdc
            rw [if_pos hd] at hdd
            have hab := char_isDigit_bounds a ha
            have hbb := char_isDigit_bounds b hb
            have hcb := char_isDigit_bounds c hc
            have hdb2 := char_isDigit_bounds d hd
            have hw : w = a.toNat - 48 := (Option.some_inj.mp hda).symm
            have hx : x = b.toNat - 48 := (Option.some_inj.mp hdb).symm
            have hy : y = c.toNat - 48 := (Option.some_inj.mp hdc).symm
            have hz : z = d.toNat - 48 := (Option.some_inj.mp hdd).symm
            have hw10 : w < 10 := by omega
            have hx10 : x < 10 := by omega
            have hy10 : y < 10 := by omega
            have hz10 : z < 10 := by omega
            constructor
            · omega
            · rw [hrest]
              have e1 : v / 1000 = w := by omega
              have e2 : v / 100 % 10 = x := by omega
              have e3 : v / 10 % 10 = y := by omega
              have e4 : v % 10 = z := by omega
              have c1 : Nat.digitChar (v / 1000) = a := by
                apply char_toNat_inj
                rw [e1, digitChar_toNat w hw10]
                omega
              have c2 : Nat.digitChar (v / 100 % 10) = b := by
                apply char_toNat_inj
                rw [e2, digitChar_toNat x hx10]
                omega
              have c3 : Nat.digitChar (v / 10 % 10) = c := by
                apply char_toNat_inj
                rw [e3, digitChar_toNat y hy10]
                omega
              have c4 : Nat.digitChar (v % 10) = d := by
                apply char_toNat_inj
                rw [e4, digitChar_toNat z hz10]
                omega
              simp [pad4, c1, c2, c3, c4]

theorem lit_inv (c : Char) (cs rest : List Char) (h : lit c cs = some rest) :
    cs = c :: rest := by
  match cs with
  | [] => simp [lit] at h
  | x :: t =>
    have hr : lit c (x :: t) = (if x = c then some t else none) := rfl
    rw [hr] at h
    by_cases hx : x = c
    · rw [if_pos hx] at h
      simp at h
      rw [hx, h]
    · rw [if_neg hx] at h
      simp at h

theorem read2_pad2_nil (v : Nat) (hv : v < 100) : read2 (pad2 v) = some (v, []) := by
  have h := read2_pad2 v hv []
  simpa using h

theorem scanDate_format (d m y h n : Nat) (hd : d < 100) (hm : m < 100)
    (hy : y < 10000) (hh : h < 100) (hn : n < 100)
    (hv : validDate y m d h n = true) :
    scanDate (dateFormatString d m y h n).data = some ⟨y, m, d, h, n, 0⟩ := by
  simp [scanDate, dateFormatString, read2_pad2 d hd, read2_pad2 m hm,
    read4_pad4 y hy, read2_pad2 h hh, read2_pad2_nil n hn, lit_cons, hv]

theorem scanDate_inv (cs : List Char) (t : DateTimeUTC) (h : scanDate cs = some t) :
    ∃ d m y hh n, d < 100 ∧ m < 100 ∧ y < 10000 ∧ hh < 100 ∧ n < 100 ∧
      cs = (dateFormatString d m y hh n).data ∧ validDate y m d hh n = true := by
  unfold scanDate at h
  cases h1 : read2 cs with
  | none => rw [h1] at h; simp at h
  | some p1 =>
  obtain ⟨d, s1⟩ := p1
  rw [h1] at h
  simp only [Option.some_bind] at h
  cases h2 : lit '.' s1 with
  | none => rw [h2] at h; simp at h
  | some r1 =>
  rw [h2] at h
  simp only [Option.some_bind] at h
  cases h3 : read2 r1 with
  | none => rw [h3] at h; simp at h
  | some p2 =>
  obtain ⟨m, s2⟩ := p2
  rw [h3] at h
  simp only [Option.some_bind] at h
  cases h4 : lit '.' s2 with
  | none => rw [h4] at h; simp at h
  | some r2 =>
  rw [h4] at h
  simp only [Option.some_bind] at h
  cases h5 : read4 r2 with
  | none => rw [h5] at h; simp at h
  | some p3 =>
  obtain ⟨y, s3⟩ := p3
  rw [h5] at h
  simp only [Option.some_bind] at h
  cases h6 : lit ' ' s3 with
  | none => rw [h6] at h; simp at h
  | some r3 =>
  rw [h6] at h
  simp only [Option.some_bind] at h
  cases h7 : read2 r3 with
  | none => rw [h7] at h; simp at h
  | some p4 =>
  obtain ⟨hh, s4⟩ := p4
  rw [h7] at h
  simp only [Option.some_bind] at h
  cases h8 : lit ':' s4 with
  | none => rw [h8] at h; simp at h
  | some r4 =>
  rw [h8] at h
  simp only [Option.some_bind] at h
  cases h9 : read2 r4 with
  | none => rw [h9] at h; simp at h
  | some p5 =>
  obtain ⟨n, s5⟩ := p5
  rw [h9] at h
  simp only [Option.some_bind] at h
  cases hs5 : s5 with
  | cons a t2 => rw [hs5] at h; simp at h
  | nil =>
  rw [hs5] at h
  simp only [] at h
  by_cases hv : validDate y m d hh n = true
  · obtain ⟨hd1, hcs⟩ := read2_inv cs d s1 h1
    have he1 := lit_inv '.' s1 r1 h2
    obtain ⟨hm1, hr1⟩ := read2_inv r1 m s2 h3
    have he2 := lit_inv '.' s2 r2 h4
    obtain ⟨hy1, hr2⟩ := read4_inv r2 y s3 h5
    have he3 := lit_inv ' ' s3 r3 h6
    obtain ⟨hh1, hr3⟩ := read2_inv r3 hh s4 h7
    have he4 := lit_inv ':' s4 r4 h8
    obtain ⟨hn1, hr4⟩ := read2_inv r4 n s5 h9
    refine ⟨d, m, y, hh, n, hd1, hm1, hy1, hh1, hn1, ?_, hv⟩
    rw [hcs, he1, hr1, he2, hr2, he3, hr3, he4, hr4, hs5]
    simp [dateFormatString]
  · rw [if_neg hv] at h
    simp at h

/-- C5: the date parser maps the reference input to 2016-08-24T11:35:00 UTC;
it succeeds (with seconds 0 and the corresponding fields) on every string of
the exact pattern `DD.MM.YYYY HH:MM` with in-range fields; and it fails with
the date-parse error kind on every other string. -/
theorem claim_C5_date_parse :
    _parse_date "24.08.2016 11:35" = .ok ⟨2016, 8, 24, 11, 35, 0⟩ ∧
    (∀ d m y h n, d < 100 → m < 100 → y < 10000 → h < 100 → n < 100 →
      validDate y m d h n = true →
      _parse_date (dateFormatString d m y h n) = .ok ⟨y, m, d, h, n, 0⟩) ∧
    (∀ s : String, ¬ MatchesDateFormat s →
      _parse_date s = .error .dateTimeParseError) := by
  refine ⟨rfl, ?_, ?_⟩
  · intro d m y h n hd hm hy hh hn hv
    unfold _parse_date
    rw [scanDate_format d m y h n hd hm hy hh hn hv]
  · intro s hns
    cases hs : scanDate s.data with
    | none =>
      unfold _parse_date
      rw [hs]
    | some t =>
      exfalso
      apply hns
      obtain ⟨d, m, y, hh, n, h1, h2, h3, h4, h5, hcs, hv⟩ := scanDate_inv s.data t hs
      exact ⟨d, m, y, hh, n, h1, h2, h3, h4, h5, String.ext hcs, hv⟩

theorem claim_C5_date_parse_witness :
    _parse_date (dateFormatString 24 8 2016 11 35) = .ok ⟨2016, 8, 24, 11, 35, 0⟩ :=
  claim_C5_date_parse.2.1 24 8 2016 11 35 (by decide) (by decide) (by decide)
    (by decide) (by decide) (by decide)

/-! ## UTF-8 round trip -/

theorem char_ofNat_toNat (c : Char) : Char.ofNat c.toNat = c := by
  have hv : Nat.isValidChar c.toNat := by
    rcases c.valid with h | h
    · exact Or.inl h
    · exact Or.inr ⟨h.1, h.2⟩
  apply Char.eq_of_val_eq
  apply UInt32.ext
  unfold Char.ofNat
  rw [dif_pos hv]
  rfl

theorem utf8_roundtrip (cs : List Char) : utf8Decode (utf8Encode cs) = some cs := by
  induction cs with
  | nil => rfl
  | cons c cs ih =>
    have hs := char_scalar c
    show utf8Decode (encodeChar c ++ utf8Encode cs) = some (c :: cs)
    unfold encodeChar
    by_cases h1 : c.toNat < 0x80
    · rw [if_pos h1]
      show utf8Decode (c.toNat :: utf8Encode cs) = some (c :: cs)
      unfold utf8Decode
      rw [if_pos (by omega), ih]
      simp only [Option.map_some']
      rw [char_ofNat_toNat]
    · rw [if_neg h1]
      by_cases h2 : c.toNat < 0x800
      · rw [if_pos h2]
        show utf8Decode ((0xC0 + c.toNat / 0x40) :: (0x80 + c.toNat % 0x40) :: utf8Encode cs) =
          some (c :: cs)
        unfold utf8Decode
        rw [if_neg (by omega), if_pos (by constructor <;> omega)]
        unfold utf8Decode2
        rw [if_pos (by unfold contByte; omega), ih]
        simp only [Option.map_some']
        have e : (0xC0 + c.toNat / 0x40 - 0xC0) * 0x40 + (0x80 + c.toNat % 0x40 - 0x80) =
            c.toNat := by omega
        rw [e, char_ofNat_toNat]
      · rw [if_neg h2]
        by_cases h3 : c.toNat < 0x10000
        · rw [if_pos h3]
          show utf8Decode ((0xE0 + c.toNat / 0x1000) :: (0x80 + c.toNat / 0x40 % 0x40) ::
              (0x80 + c.toNat % 0x40) :: utf8Encode cs) = some (c :: cs)
          unfold utf8Decode
          rw [if_neg (by omega), if_neg (by omega), if_pos (by constructor <;> omega)]
          unfold utf8Decode3
          rw [if_pos ?hcond3, ih]
          case hcond3 =>
            refine ⟨?_, by unfold contByte; constructor <;> omega⟩
            unfold sndByteOk
            by_cases he0 : 0xE0 + c.toNat / 0x1000 = 0xE0
            · rw [if_pos he0]
              constructor <;> omega
            · rw [if_neg he0]
              by_cases hed : 0xE0 + c.toNat / 0x1000 = 0xED
              · rw [if_pos hed]
                rcases hs with hlt | hge
                · constructor <;> omega
                · constructor <;> omega
              · rw [if_neg hed, if_neg (by omega), if_neg (by omega)]
                unfold contByte
                constructor <;> omega
          simp only [Option.map_some']
          have e : (0xE0 + c.toNat / 0x1000 - 0xE0) * 0x1000 +
              (0x80 + c.toNat / 0x40 % 0x40 - 0x80) * 0x40 +
              (0x80 + c.toNat % 0x40 - 0x80) = c.toNat := by omega
          rw [e, char_ofNat_toNat]
        · rw [if_neg h3]
          have h4 : c.toNat < 0x110000 := by
            rcases hs with hlt | hge
            · omega
            · omega
          show utf8Decode ((0xF0 + c.toNat / 0x40000) :: (0x80 + c.toNat / 0x1000 % 0x40) ::
              (0x80 + c.toNat / 0x40 % 0x40) :: (0x80 + c.toNat % 0x40) :: utf8Encode cs) =
            some (c :: cs)
          unfold utf8Decode
          rw [if_neg (by omega), if_neg (by omega), if_neg (by omega),
            if_pos (by constructor <;> omega)]
          unfold utf8Decode4
          rw [if_pos ?hcond4, ih]
          case hcond4 =>
            refine ⟨?_, by unfold contByte; constructor <;> omega,
              by unfold contByte; constructor <;> omega⟩
            unfold sndByteOk
            rw [if_neg (by omega), if_neg (by omega)]
            by_cases hf0 : 0xF0 + c.toNat / 0x40000 = 0xF0
            · rw [if_pos hf0]
              constructor <;> omega
            · rw [if_neg hf0]
              by_cases hf4 : 0xF0 + c.toNat / 0x40000 = 0xF4
              · rw [if_pos hf4]
                constructor <;> omega
              · rw [if_neg hf4]
                unfold contByte
                constructor <;> omega
          simp only [Option.map_some']
          have e : (0xF0 + c.toNat / 0x40000 - 0xF0) * 0x40000 +
              (0x80 + c.toNat / 0x1000 % 0x40 - 0x80) * 0x1000 +
              (0x80 + c.toNat / 0x40 % 0x40 - 0x80) * 0x40 +
              (0x80 + c.toNat % 0x40 - 0x80) = c.toNat := by omega
          rw [e, char_ofNat_toNat]

/-! ## String-literal escape round trip -/

theorem hexVal_digitChar : ∀ k, k < 16 → hexVal (Nat.digitChar k) = some k := by
  decide

theorem parseEscape_simple (e d : Char) (he2 : ¬ e = 'u') (he : escChar e = some d)
    (tail : List Char) :
    parseEscape (e :: tail) = (parseStringBody tail).map (fun p => (d :: p.1, p.2)) := by
  unfold parseEscape
  rw [if_neg he2, he]

theorem parseStringBody_escape (cs rest : List Char) :
    parseStringBody (escapeJson cs ++ '"' :: rest) = .ok (cs, rest) := by
  induction cs with
  | nil =>
    show parseStringBody ('"' :: rest) = .ok ([], rest)
    unfold parseStringBody
    rw [if_pos rfl]
  | cons c cs ih =>
    show parseStringBody ((escapeJsonChar c ++ escapeJson cs) ++ '"' :: rest) =
      .ok (c :: cs, rest)
    rw [List.append_assoc]
    unfold escapeJsonChar
    by_cases hq : c = '"'
    · rw [if_pos hq]
      show parseStringBody ('\\' :: '"' :: (escapeJson cs ++ '"' :: rest)) = _
      unfold parseStringBody
      rw [if_neg (by decide), if_pos rfl]
      rw [parseEscape_simple '"' '"' (by decide) rfl]
      rw [ih, hq]
      rfl
    · rw [if_neg hq]
      by_cases hb : c = '\\'
      · rw [if_pos hb]
        show parseStringBody ('\\' :: '\\' :: (escapeJson cs ++ '"' :: rest)) = _
        unfold parseStringBody
        rw [if_neg (by decide), if_pos rfl]
        rw [parseEscape_simple '\\' '\\' (by decide) rfl]
        rw [ih, hb]
        rfl
      · rw [if_neg hb]
        by_cases hc : c.toNat < 0x20
        · rw [if_pos hc]
          show parseStringBody ('\\' :: 'u' :: '0' :: '0' ::
              Nat.digitChar (c.toNat / 16) :: Nat.digitChar (c.toNat % 16) ::
              (escapeJson cs ++ '"' :: rest)) = _
          unfold parseStringBody
          rw [if_neg (by decide), if_pos rfl]
          unfold parseEscape
          rw [if_pos rfl]
          unfold parseHexEscape
          have hh1 : c.toNat / 16 < 16 := by omega
          have hh2 : c.toNat % 16 < 16 := by omega
          have hhex : hexVal4 '0' '0' (Nat.digitChar (c.toNat / 16))
              (Nat.digitChar (c.toNat % 16)) = some (c.toNat / 16 * 16 + c.toNat % 16) := by
            unfold hexVal4
            rw [show hexVal '0' = some 0 from rfl, hexVal_digitChar _ hh1,
              hexVal_digitChar _ hh2]
            show some (((0 * 16 + 0) * 16 + c.toNat / 16) * 16 + c.toNat % 16) = _
            norm_num
          rw [hhex]
          have hv : c.toNat / 16 * 16 + c.toNat % 16 = c.toNat := by omega
          show (if c.toNat / 16 * 16 + c.toNat % 16 < 0xD800 ∨
              0xE000 ≤ c.toNat / 16 * 16 + c.toNat % 16 then
            (parseStringBody (escapeJson cs ++ '"' :: rest)).map
              (fun p => (Char.ofNat (c.toNat / 16 * 16 + c.toNat % 16) :: p.1, p.2))
          else if c.toNat / 16 * 16 + c.toNat % 16 ≤ 0xDBFF then
            parseLowSurrogate (c.toNat / 16 * 16 + c.toNat % 16)
              (escapeJson cs ++ '"' :: rest)
          else .error "lone low surrogate") = _
          rw [if_pos (by omega), ih, hv, char_ofNat_toNat]
          rfl
        · rw [if_neg hc]
          show parseStringBody (c :: (escapeJson cs ++ '"' :: rest)) = _
          unfold parseStringBody
          rw [if_neg hq, if_neg hb, if_neg hc, ih]
          rfl

/-! ## Parsing the envelope -/

theorem skipWs_not (c : Char) (rest : List Char) (h : ¬ isWs c) :
    skipWs (c :: rest) = c :: rest := by
  unfold skipWs
  rw [if_neg h]

theorem parseValue_envelope (f : Nat) (h : String) :
    parseValue (f + 7) (envelopeChars h) = .ok (.obj [("d", .str h)], []) := by
  show parseValue (f + 6 + 1)
    (lbrace :: '"' :: 'd' :: '"' :: ':' :: '"' :: (escapeJson h.data ++ '"' :: rbrace :: [])) = _
  unfold parseValue
  rw [skipWs_not _ _ (by decide)]
  show parseValueCore (f + 5 + 1)
    (lbrace :: '"' :: 'd' :: '"' :: ':' :: '"' :: (escapeJson h.data ++ '"' :: rbrace :: [])) = _
  unfold parseValueCore
  rw [if_pos rfl, skipWs_not _ _ (by decide)]
  show parseObjStart (f + 4 + 1)
    ('"' :: 'd' :: '"' :: ':' :: '"' :: (escapeJson h.data ++ '"' :: rbrace :: [])) = _
  unfold parseObjStart
  rw [if_neg (by decide)]
  show (parseMembers (f + 3 + 1)
      ('"' :: 'd' :: '"' :: ':' :: '"' :: (escapeJson h.data ++ '"' :: rbrace :: []))).map
    (fun q => (Json.obj q.1, q.2)) = _
  unfold parseMembers
  rw [if_pos rfl]
  have hkey : parseStringBody ('d' :: '"' :: (':' :: '"' ::
      (escapeJson h.data ++ '"' :: rbrace :: []))) =
      .ok (['d'], ':' :: '"' :: (escapeJson h.data ++ '"' :: rbrace :: [])) := rfl
  rw [hkey]
  show ((parseMemberColon (f + 2 + 1) (String.mk ['d'])
      (skipWs (':' :: '"' :: (escapeJson h.data ++ '"' :: rbrace :: [])))).map
    (fun q => (Json.obj q.1, q.2)) : Except String (Json × List Char)) = _
  rw [skipWs_not _ _ (by decide)]
  unfold parseMemberColon
  rw [if_pos rfl]
  have hinner : parseValue (f + 1 + 1) ('"' :: (escapeJson h.data ++ '"' :: rbrace :: [])) =
      .ok (.str h, rbrace :: []) := by
    unfold parseValue
    rw [skipWs_not _ _ (by decide)]
    show parseValueCore (f + 0 + 1) ('"' :: (escapeJson h.data ++ '"' :: rbrace :: [])) = _
    unfold parseValueCore
    rw [if_neg (by decide), if_neg (by decide), if_pos rfl,
      parseStringBody_escape h.data (rbrace :: [])]
    rfl
  rw [hinner]
  show ((parseMemberRest (f + 0 + 1) (String.mk ['d']) (Json.str h)
      (skipWs (rbrace :: []))).map
    (fun q => (Json.obj q.1, q.2)) : Except String (Json × List Char)) = _
  rw [skipWs_not _ _ (by decide)]
  unfold parseMemberRest
  rw [if_neg (by decide), if_pos rfl]
  rfl

theorem fromStr_envelope (h : String) :
    Json.fromStr (String.mk (envelopeChars h)) = .ok (.obj [("d", .str h)]) := by
  unfold Json.fromStr
  have hlen : 8 * (String.mk (envelopeChars h)).data.length + 8 =
      (8 * (escapeJson h.data).length + 65) + 7 := by
    show 8 * (envelopeChars h).length + 8 = _
    unfold envelopeChars
    simp [List.length_append]
    omega
  rw [hlen, parseValue_envelope]
  rfl

/-- C7: feeding `_process_response` the UTF-8 bytes of the JSON object whose
single key `"d"` maps to an HTML string `h` gives exactly the result of
feeding `h` to `_parse_table` directly — the same records on success, the
same error value on failure. -/
theorem claim_C7_envelope_roundtrip (htmlParse : String → NodeList) (h : String) :
    _process_response htmlParse (jsonEnvelopeBytes h) = _parse_table htmlParse h := by
  unfold _process_response _parse_json jsonEnvelopeBytes
  rw [utf8_roundtrip (envelopeChars h)]
  show (match (match Json.fromStr (String.mk (envelopeChars h)) with
      | Except.error e => Except.error (Error.new (ErrorType.jsonParserError e))
      | Except.ok j => Except.ok j : Except Error Json) with
    | Except.error e => Except.error e
    | Except.ok root_json =>
      match envelopeString root_json with
      | none => Except.error (Error.new (ErrorType.processResponseFailedError "Wrong JSON content"))
      | some table_str => _parse_table htmlParse table_str) = _
  rw [fromStr_envelope]
  rfl

/-- C6: `_process_response` classifies failures stage by stage: invalid UTF-8
gives a `Utf8Error` cause (TextEncodingFailure), UTF-8 text that is not valid
JSON gives a `JsonParserError` cause (JsonParseFailure), a JSON value that is
not an object holding a string under key `"d"` gives
`ProcessResponseFailedError "Wrong JSON content"` (ResponseShapeFailure), and
only otherwise is the string under `"d"` handed to `_parse_table`; the second
conjunct characterizes the envelope extraction in the claim's terms. -/
theorem claim_C6_response_stages (htmlParse : String → NodeList) (response : List Nat) :
    (_process_response htmlParse response =
      match utf8Decode response with
      | none => .error (Error.new .utf8Error)
      | some chars =>
        match Json.fromStr (String.mk chars) with
        | .error e => .error (Error.new (.jsonParserError e))
        | .ok j =>
          match envelopeString j with
          | none => .error (Error.new (.processResponseFailedError "Wrong JSON content"))
          | some table_str => _parse_table htmlParse table_str) ∧
    (∀ (j : Json) (d : String),
      envelopeString j = some d ↔
        ∃ pairs, j = Json.obj pairs ∧ jsonGet pairs "d" = some (Json.str d)) := by
  constructor
  · unfold _process_response _parse_json
    cases hu : utf8Decode response with
    | none => rfl
    | some chars =>
      show (match (match Json.fromStr (String.mk chars) with
          | Except.error e => Except.error (Error.new (ErrorType.jsonParserError e))
          | Except.ok j => Except.ok j : Except Error Json) with
        | Except.error e => Except.error e
        | Except.ok root_json =>
          match envelopeString root_json with
          | none =>
            Except.error (Error.new (ErrorType.processResponseFailedError "Wrong JSON content"))
          | some table_str => _parse_table htmlParse table_str) =
        (match Json.fromStr (String.mk chars) with
        | Except.error e => Except.error (Error.new (ErrorType.jsonParserError e))
        | Except.ok j =>
          match envelopeString j with
          | none =>
            Except.error (Error.new (ErrorType.processResponseFailedError "Wrong JSON content"))
          | some table_str => _parse_table htmlParse table_str)
      cases Json.fromStr (String.mk chars) with
      | error e => rfl
      | ok j => rfl
  · intro j d
    constructor
    · intro hsome
      unfold envelopeString at hsome
      cases j with
      | obj pairs =>
        refine ⟨pairs, rfl, ?_⟩
        simp only [Json.asObject, Option.some_bind] at hsome
        cases hg : jsonGet pairs "d" with
        | none => rw [hg] at hsome; simp at hsome
        | some v =>
          rw [hg] at hsome
          simp only [Option.some_bind] at hsome
          cases v <;> simp [Json.asString] at hsome
          case str s => rw [hsome]
      | null => simp [Json.asObject] at hsome
      | bool b => simp [Json.asObject] at hsome
      | num r => simp [Json.asObject] at hsome
      | str s2 => simp [Json.asObject] at hsome
      | arr l => simp [Json.asObject] at hsome
    · intro hex
      rcases hex with ⟨pairs, rfl, hget⟩
      simp [envelopeString, Json.asObject, hget, Json.asString]
